import Mathlib

/-!
Shallow embedding of the `retired-in-a-field-cvm` repository's ledger core.

Tables of the SQLite database (`src/utils/database.ts`) are modeled as Lean
lists of row structures inside a `DBState`; every operation of
`src/utils/leaderboard.ts` and `src/utils/database.ts` that the claims touch
is translated into a pure state-passing function.  SQL `UPDATE ... WHERE`
statements become `List.map` with a guard (they update every matching row,
as SQL does), `SELECT ... LIMIT 1` becomes `List.find?`, `SUM(...)` becomes
a filter-map-sum, and a thrown `Error` becomes `Except.error`.
External collaborators (the Cashuwall fetch, the payment dispatch, the
sha256 primitive) are parameters/oracles, never stubbed-out ledger logic.
-/

namespace RetiredCVM

/-- Status column of the `payouts` table (`src/utils/database.ts`). -/
inductive PayoutStatus where
  | pending
  | sent
  | failed
  | canceled
deriving DecidableEq, Repr

/-- Row of `leaderboard_entries` (npub PRIMARY KEY, initials, total_sats_lost). -/
structure LBEntry where
  npub : String
  initials : String
  total_sats_lost : Int
deriving DecidableEq, Repr

/-- Row of `leaderboard_updates` (ref_id UNIQUE, npub, initials, sats_lost). -/
structure LBUpdate where
  ref_id : String
  npub : String
  initials : String
  sats_lost : Int
deriving DecidableEq, Repr

/-- Row of `donations` (source UNIQUE, amount_sats). -/
structure Donation where
  source : String
  amount_sats : Int
deriving DecidableEq, Repr

/-- Row of `split_accumulators` (npub PRIMARY KEY, owed_sats). -/
structure Accum where
  npub : String
  owed_sats : Int
deriving DecidableEq, Repr

/-- Row of `payouts`.  `finalized` models `finalized_at` being set (non-NULL);
the wall-clock value itself is not modeled. -/
structure Payout where
  id : Nat
  npub : String
  amount_sats : Int
  status : PayoutStatus
  external_ref : Option String
  error : Option String
  finalized : Bool
deriving DecidableEq, Repr

/-- The whole persistent store.  `nextPayoutId` models SQLite's AUTOINCREMENT
rowid counter for the `payouts` table. -/
structure DBState where
  leaderboard_entries : List LBEntry
  leaderboard_updates : List LBUpdate
  donations : List Donation
  split_accumulators : List Accum
  payouts : List Payout
  nextPayoutId : Nat
deriving DecidableEq, Repr

/-- JavaScript's `String.prototype.toUpperCase` on the ASCII initials used by
the repository.  This is Lean's `String.toUpper` (`map Char.toUpper`) restated
by mapping over the character list, so that it evaluates by `decide`. -/
def toUpperJS (x : String) : String := ⟨x.data.map Char.toUpper⟩

/-- JavaScript's `String.prototype.trim` (drop whitespace from both ends),
restated on the character list so that it evaluates by `decide`. -/
def trimJS (x : String) : String :=
  ⟨((x.data.dropWhile fun c => c.isWhitespace).reverse.dropWhile fun c =>
      c.isWhitespace).reverse⟩

/-- The query `SELECT ... FROM leaderboard_entries WHERE npub = ?` (npub is the primary
key; `find?` returns the matching row). -/
def findEntry (s : DBState) (npub : String) : Option LBEntry :=
  s.leaderboard_entries.find? fun e => e.npub == npub

/-- The stored aggregate for a player, `0` when the row is absent.  This is the
`currentEntry?.total_sats_lost || 0` read pattern of `updateLeaderboard`
(for an integer `x`, `x || 0` is `x`, since `0 || 0` is `0`). -/
def entryTotal (s : DBState) (npub : String) : Int :=
  ((findEntry s npub).map fun e => e.total_sats_lost).getD 0

/-- The query `SELECT id FROM leaderboard_updates WHERE ref_id = ?`. -/
def findUpdateByRef (s : DBState) (refId : String) : Option LBUpdate :=
  s.leaderboard_updates.find? fun u => u.ref_id == refId

/-- The query `SELECT COALESCE(SUM(sats_lost), 0) FROM leaderboard_updates WHERE npub = ?`. -/
def sumUpdates (s : DBState) (npub : String) : Int :=
  ((s.leaderboard_updates.filter fun u => u.npub == npub).map fun u => u.sats_lost).sum

/-- Result value returned from the `updateLeaderboard` transaction callback. -/
structure LBUpdateResultCore where
  totalSats : Int
  isDuplicate : Bool
deriving DecidableEq, Repr

/-- The function `updateLeaderboard` of `src/utils/leaderboard.ts` (lines 63-160): input
validation (thrown errors become `Except.error`), dedup on `ref_id`, then
cumulative upsert of `leaderboard_entries` plus insert of the
`leaderboard_updates` event row, all inside one transaction. -/
def updateLeaderboard (npub initials : String) (sats : Int) (refId : String)
    (s : DBState) : Except String (LBUpdateResultCore × DBState) :=
  if npub = "" ∨ initials = "" ∨ sats ≤ 0 ∨ refId = "" then
    Except.error "Invalid input: npub, initials, positive sats, and refId are required"
  else if initials.length ≠ 3 then
    Except.error "Initials must be exactly 3 characters"
  else
    match findUpdateByRef s refId with
    | some _ =>
        -- Duplicate refId: no write at all, report the caller's npub's total.
        Except.ok ({ totalSats := entryTotal s npub, isDuplicate := true }, s)
    | none =>
        match findEntry s npub with
        | some e =>
            let totalSats := e.total_sats_lost + sats
            let s1 : DBState :=
              { s with
                leaderboard_entries := s.leaderboard_entries.map fun r =>
                  if r.npub == npub then
                    { r with total_sats_lost := totalSats, initials := toUpperJS initials }
                  else r,
                leaderboard_updates := s.leaderboard_updates ++
                  [{ ref_id := refId, npub := npub, initials := toUpperJS initials,
                     sats_lost := sats }] }
            Except.ok ({ totalSats := totalSats, isDuplicate := false }, s1)
        | none =>
            let s1 : DBState :=
              { s with
                leaderboard_entries := s.leaderboard_entries ++
                  [{ npub := npub, initials := toUpperJS initials, total_sats_lost := sats }],
                leaderboard_updates := s.leaderboard_updates ++
                  [{ ref_id := refId, npub := npub, initials := toUpperJS initials,
                     sats_lost := sats }] }
            Except.ok ({ totalSats := sats, isDuplicate := false }, s1)

/-- Result of `validateAndSyncPlayerScore`. -/
structure SyncResult where
  wasInconsistent : Bool
  oldTotal : Int
  newTotal : Int
  difference : Int
deriving DecidableEq, Repr

/-- The statement `UPDATE leaderboard_entries SET total_sats_lost = ? WHERE npub = ?`. -/
def setEntryTotal (s : DBState) (npub : String) (v : Int) : DBState :=
  { s with
    leaderboard_entries := s.leaderboard_entries.map fun r =>
      if r.npub == npub then { r with total_sats_lost := v } else r }

/-- The function `validateAndSyncPlayerScore` of `src/utils/leaderboard.ts` (lines 275-335):
reconciliation.  Missing entry row: report all-zero, write nothing.  Otherwise
compare the stored aggregate to the event sum and overwrite on drift. -/
def validateAndSyncPlayerScore (npub : String) (s : DBState) :
    Except String (SyncResult × DBState) :=
  if npub = "" then Except.error "npub is required"
  else
    match findEntry s npub with
    | none =>
        Except.ok ({ wasInconsistent := false, oldTotal := 0, newTotal := 0,
                     difference := 0 }, s)
    | some e =>
        let oldTotal := e.total_sats_lost
        let newTotal := sumUpdates s npub
        let difference := newTotal - oldTotal
        if difference = 0 then
          Except.ok ({ wasInconsistent := false, oldTotal := oldTotal,
                       newTotal := newTotal, difference := 0 }, s)
        else
          Except.ok ({ wasInconsistent := true, oldTotal := oldTotal,
                       newTotal := newTotal, difference := difference },
                     setEntryTotal s npub newTotal)

/-- The query `SELECT owed_sats FROM split_accumulators WHERE npub = ?`, `0` when absent
(`row?.owed_sats ?? 0` in both copies of `getOwed` in the source). -/
def getOwed (s : DBState) (npub : String) : Int :=
  ((s.split_accumulators.find? fun a => a.npub == npub).map fun a => a.owed_sats).getD 0

/-- The query `SELECT COALESCE(SUM(amount_sats),0) FROM payouts WHERE npub = ? AND
status = 'pending'`. -/
def getPendingSum (s : DBState) (npub : String) : Int :=
  ((s.payouts.filter fun p =>
      p.npub == npub && p.status == PayoutStatus.pending).map fun p => p.amount_sats).sum

/-- The statement `INSERT INTO payouts (npub, amount_sats, status) VALUES (?, ?, 'pending')`;
returns `lastInsertRowid` and the new state (`createPayoutRow` /
`createPendingPayout` in the source, which are textually identical). -/
def createPayoutRow (s : DBState) (npub : String) (amount : Int) : Nat × DBState :=
  (s.nextPayoutId,
   { s with
     payouts := s.payouts ++
       [{ id := s.nextPayoutId, npub := npub, amount_sats := amount,
          status := PayoutStatus.pending, external_ref := none, error := none,
          finalized := false }],
     nextPayoutId := s.nextPayoutId + 1 })

/-- Alias used by the periodic payout worker (`createPendingPayout`). -/
def createPendingPayout (s : DBState) (npub : String) (amount : Int) : Nat × DBState :=
  createPayoutRow s npub amount

/-- JavaScript `x || null` for an optional string: an empty string is falsy and
collapses to `null` (the `externalRef || null` bind in `markPayoutSent`). -/
def jsOrNull (x : Option String) : Option String :=
  match x with
  | some v => if v = "" then none else some v
  | none => none

/-- The functions `markPayoutSent` / `finalizePayoutSuccess`: set the payout row to `sent`
with `finalized_at` and the external reference, and decrement the payee's
accumulator by the amount (`UPDATE split_accumulators SET owed_sats =
owed_sats - ? WHERE npub = ?`; a missing accumulator row is left missing,
exactly as the SQL `UPDATE` matches no row). -/
def markPayoutSent (s : DBState) (payoutId : Nat) (npub : String) (amount : Int)
    (externalRef : Option String) : DBState :=
  { s with
    payouts := s.payouts.map fun p =>
      if p.id == payoutId then
        { p with status := PayoutStatus.sent, finalized := true,
                 external_ref := jsOrNull externalRef }
      else p,
    split_accumulators := s.split_accumulators.map fun a =>
      if a.npub == npub then { a with owed_sats := a.owed_sats - amount } else a }

/-- The functions `markPayoutFailed` / `finalizePayoutFailure`: set the payout row to
`failed` with `finalized_at` and the error; no other table is touched. -/
def markPayoutFailed (s : DBState) (payoutId : Nat) (err : String) : DBState :=
  { s with
    payouts := s.payouts.map fun p =>
      if p.id == payoutId then
        { p with status := PayoutStatus.failed, finalized := true, error := some err }
      else p }

/-- The function `finalizePayoutSuccess` of `src/utils/database.ts` (lines 475-481); its body
is the same two UPDATE statements as the worker's `markPayoutSent`. -/
def finalizePayoutSuccess (s : DBState) (payoutId : Nat) (npub : String)
    (amount : Int) (externalRef : Option String) : DBState :=
  markPayoutSent s payoutId npub amount externalRef

/-- The function `finalizePayoutFailure` of `src/utils/database.ts` (lines 483-486). -/
def finalizePayoutFailure (s : DBState) (payoutId : Nat) (err : String) : DBState :=
  markPayoutFailed s payoutId err

/-- The query `SELECT id FROM payouts WHERE npub=? AND amount_sats=? AND status='pending'
ORDER BY id DESC LIMIT 1`: the greatest id among matching pending rows. -/
def findPendingPayout (s : DBState) (npub : String) (amount : Int) : Option Nat :=
  ((s.payouts.filter fun p =>
      p.npub == npub && p.amount_sats == amount && p.status == PayoutStatus.pending).map
    fun p => p.id).max?

/-- The lookup `SELECT id FROM payouts WHERE id = ?` (read helper for stating theorems). -/
def getPayout (s : DBState) (payoutId : Nat) : Option Payout :=
  s.payouts.find? fun p => p.id == payoutId

/-- JavaScript `a || (b || c)` on optional strings with a mandatory fallback. -/
def jsOrStr (x : Option String) (d : String) : String :=
  match x with
  | some v => if v = "" then d else v
  | none => d

/-- The pending payment intents returned from the chunked-dispatch transaction
(the `{ npub, amount, status }` objects that `triggerPayoutsIfThreshold`
pushes, later enriched with `externalRef` by the finalization loop). -/
structure IntentInfo where
  npub : String
  amount : Int
  status : PayoutStatus
  externalRef : Option String
deriving DecidableEq, Repr

/-- The `while (owed >= threshold)` loop body of `triggerPayoutsIfThreshold`
(`src/utils/database.ts` lines 488-500), with explicit fuel.  Each iteration
inserts one pending payout row of exactly `threshold` sats and decrements only
the in-memory `owed` variable; the loop also returns that final in-memory
value.  For `threshold ≥ 1` the fuel supplied by `triggerPayoutsIfThreshold`
is never exhausted; for `threshold ≤ 0` the TypeScript loop would not
terminate, a case no caller exercises (the configured threshold is positive). -/
def payoutLoop (npub : String) (threshold : Int) :
    Nat → Int → DBState → List IntentInfo × Int × DBState
  | 0, owed, s => ([], owed, s)
  | fuel + 1, owed, s =>
    if threshold ≤ owed then
      let c := createPayoutRow s npub threshold
      let rest := payoutLoop npub threshold fuel (owed - threshold) c.2
      ({ npub := npub, amount := threshold, status := PayoutStatus.pending,
         externalRef := none } :: rest.1, rest.2.1, rest.2.2)
    else ([], owed, s)

/-- The function `triggerPayoutsIfThreshold` (chunked dispatch policy): read the stored
aggregate once, then run the chunking loop on the in-memory copy. -/
def triggerPayoutsIfThreshold (s : DBState) (npub : String) (threshold : Int) :
    List IntentInfo × Int × DBState :=
  payoutLoop npub threshold ((getOwed s npub).toNat + 1) (getOwed s npub) s

/-- One entry of `splits.json` (the periodic worker's configuration). -/
structure WorkerEntry where
  npub : String
  lightningAddress : String
  min_amount : Int
  comment : Option String
deriving DecidableEq, Repr

/-- The intent-creation decision of the periodic payout worker for one
configured entry (`startPayoutWorker`, `src/utils/database.ts` lines 330-352):
skip invalid entries, compute `available = max(0, owed - pendingSum)`, skip if
below the entry's minimum, otherwise create exactly one pending payout for the
whole available amount.  Returns the created payout id, if any.  The
subsequent zap call and finalization are the separate
`markPayoutSent` / `markPayoutFailed` steps. -/
def drainDispatchStep (s : DBState) (e : WorkerEntry) : Option Nat × DBState :=
  if e.npub = "" ∨ e.lightningAddress = "" ∨ e.min_amount = 0 ∨ e.min_amount ≤ 0 then
    (none, s)
  else
    let owed := getOwed s e.npub
    let pending := getPendingSum s e.npub
    let available := max 0 (owed - pending)
    if available < e.min_amount then (none, s)
    else
      let c := createPendingPayout s e.npub available
      (some c.1, c.2)

/-- Half of an amount rounded up: `Math.ceil(amount / 2)` of the split.  For
integers, `⌈a / 2⌉ = ⌊(a + 1) / 2⌋`, and Lean's `Int` division by a positive
literal is floor division. -/
def ceilHalf (a : Int) : Int := (a + 1) / 2

/-- Half of an amount rounded down: `Math.floor(amount / 2)` of the split. -/
def floorHalf (a : Int) : Int := a / 2

/-- One `{ npub, added, newOwed }` record of the split breakdown. -/
structure SplitInfo where
  npub : String
  added : Int
  newOwed : Int
deriving DecidableEq, Repr

/-- The statement `INSERT INTO split_accumulators ... ON CONFLICT(npub) DO UPDATE SET
owed_sats = owed_sats + ?` (`upsertAccumulator` in the source). -/
def upsertAccumulator (s : DBState) (npub : String) (delta : Int) : DBState :=
  if s.split_accumulators.any fun a => a.npub == npub then
    { s with
      split_accumulators := s.split_accumulators.map fun a =>
        if a.npub == npub then { a with owed_sats := a.owed_sats + delta } else a }
  else
    { s with split_accumulators := s.split_accumulators ++ [{ npub := npub, owed_sats := delta }] }

/-- Return value of the `recordDonationAndSplit` helper. -/
structure RecordSplitResult where
  isNew : Bool
  splits : List SplitInfo
deriving DecidableEq, Repr

/-- The helper `recordDonationAndSplit` of `src/utils/database.ts` (lines 434-459):
`INSERT OR IGNORE` the donation keyed by the token fingerprint; when it is new,
split the amount with ceiling/floor halves and apply each share to the
respective payee's accumulator, then read back both owed totals. -/
def recordDonationAndSplit (s : DBState) (source : String) (amount : Int)
    (npub1 npub2 : String) : RecordSplitResult × DBState :=
  if s.donations.any fun d => d.source == source then
    ({ isNew := false, splits := [] }, s)
  else
    let s0 : DBState :=
      { s with donations := s.donations ++ [{ source := source, amount_sats := amount }] }
    let part1 := ceilHalf amount
    let part2 := floorHalf amount
    let s1 := upsertAccumulator s0 npub1 part1
    let s2 := upsertAccumulator s1 npub2 part2
    ({ isNew := true,
       splits := [{ npub := npub1, added := part1, newOwed := getOwed s2 npub1 },
                  { npub := npub2, added := part2, newOwed := getOwed s2 npub2 }] }, s2)

/-- Decision values of the access gate (`src/utils/cashu-access.ts`). -/
inductive CashuDecision where
  | ACCESS_GRANTED
  | ACCESS_DENIED
deriving DecidableEq, Repr

/-- The structured result that `processCashuToken` always returns. -/
structure CashuAccessResult where
  decision : CashuDecision
  amount : Int
  reason : String
  mode : String
deriving DecidableEq, Repr

/-- The fields the source reads from the Cashuwall JSON body.  A body that was
not JSON, or failed to parse, is the all-`none` record (the source falls back
to `{}`). -/
structure CashuBody where
  accepted : Option Bool
  amount : Option Int
  reason : Option String
  error : Option String
  message : Option String
deriving DecidableEq, Repr

/-- What the single `fetch` to Cashuwall did: network error (rejected promise),
abort by the 10-second timer, or an HTTP response with a status and body. -/
inductive FetchOutcome where
  | netError (msg : String)
  | timeout
  | response (status : Nat) (body : CashuBody)
deriving DecidableEq, Repr

/-- The function `processCashuToken` of `src/utils/cashu-access.ts` (lines 16-93), as a
total function of the token and of the fetch outcome.  Every branch of the
source returns a structured `CashuAccessResult`: the empty-token guard, the
catch of the aborted/rejected fetch, the non-2xx branch, and both 2xx
branches; nothing is thrown past the function.  `minAmount` is only logged by
the source (the server enforces the threshold), so it does not influence the
result. -/
def processCashuToken (encodedToken : String) (minAmount : Int)
    (outcome : FetchOutcome) : CashuAccessResult :=
  if (trimJS encodedToken).length = 0 then
    { decision := CashuDecision.ACCESS_DENIED, amount := 0,
      reason := "encodedToken is required (cashu... string)", mode := "cashuwall" }
  else
    match outcome with
    | FetchOutcome.timeout =>
        { decision := CashuDecision.ACCESS_DENIED, amount := 0,
          reason := "request_timeout", mode := "cashuwall" }
    | FetchOutcome.netError msg =>
        { decision := CashuDecision.ACCESS_DENIED, amount := 0,
          reason := msg, mode := "cashuwall" }
    | FetchOutcome.response status body =>
        if 200 ≤ status ∧ status < 300 then
          if body.accepted = some true then
            { decision := CashuDecision.ACCESS_GRANTED, amount := body.amount.getD 0,
              reason := "accepted", mode := "cashuwall" }
          else
            { decision := CashuDecision.ACCESS_DENIED, amount := body.amount.getD 0,
              reason := jsOrStr body.reason (jsOrStr body.error "amount_below_threshold"),
              mode := "cashuwall" }
        else
          { decision := CashuDecision.ACCESS_DENIED, amount := 0,
            reason := jsOrStr body.error (jsOrStr body.message ("HTTP " ++ toString status)),
            mode := "cashuwall" }

/-- The split configuration read by `getConfig` (`SPLIT_NPUB1`, `SPLIT_NPUB2`,
`SPLIT_THRESHOLD_SATS`); environment-dependent, so a parameter here. -/
structure SplitConfig where
  npub1 : String
  npub2 : String
  threshold : Int
deriving DecidableEq, Repr

/-- Outcome of one external payment attempt (`requestInvoiceAndPayStub` in the
redeem paths — which in the source always reports `ok: true` with a
timestamp-based reference — or the worker's `zap` call).  Supplied as an
oracle because the reference/timing is external nondeterminism. -/
structure PayAttempt where
  ok : Bool
  externalRef : Option String
  error : Option String
deriving DecidableEq, Repr

/-- The post-transaction finalization loop shared by the redeem paths
(`src/utils/database.ts` lines 601-626, 664-688): for each pending intent,
attempt the external payment, re-find the newest matching pending payout row
by `(npub, amount, status='pending')`, and finalize it as sent or failed.
`n` indexes the oracle across the sequential attempts. -/
def processPendingPayouts (payEnv : Nat → PayAttempt) :
    List IntentInfo → Nat → DBState → List IntentInfo × DBState
  | [], _, s => ([], s)
  | p :: rest, n, s =>
    let attempt := payEnv n
    if attempt.ok then
      let s1 :=
        match findPendingPayout s p.npub p.amount with
        | some pid => finalizePayoutSuccess s pid p.npub p.amount attempt.externalRef
        | none => s
      let r := processPendingPayouts payEnv rest (n + 1) s1
      ({ p with status := PayoutStatus.sent, externalRef := attempt.externalRef } :: r.1, r.2)
    else
      let s1 :=
        match findPendingPayout s p.npub p.amount with
        | some pid => finalizePayoutFailure s pid (jsOrStr attempt.error "stub_failure")
        | none => s
      let r := processPendingPayouts payEnv rest (n + 1) s1
      ({ p with status := PayoutStatus.failed } :: r.1, r.2)

/-- Advisory validation summary (`validateCashuTokenAmount`): computed from
reads only and never gating any write, so its value is an input here. -/
structure ValidationInfo where
  isValid : Bool
  reason : String
  recommendations : List String
deriving DecidableEq, Repr

/-- The `RedeemAndSplitResult` object of `src/utils/database.ts`; optional
TypeScript fields are `Option`s (`none` = the key is absent). -/
structure RedeemAndSplitResult where
  accepted : Bool
  amount : Int
  reason : Option String
  donationRecorded : Option Bool
  donationSource : Option String
  splits : Option (List SplitInfo)
  payouts : Option (List IntentInfo)
  validation : Option ValidationInfo
  preventedDuplicate : Option Bool
deriving DecidableEq, Repr

/-- The transaction body plus finalization shared by the granted paths: record
the donation, trigger chunked dispatch for both payees when the donation was
new, then run the finalization loop. -/
def grantedSplitFlow (hash : String → String) (cfg : SplitConfig)
    (payEnv : Nat → PayAttempt) (encodedToken : String) (amount : Int)
    (s : DBState) : String × RecordSplitResult × List IntentInfo × DBState :=
  let source := hash encodedToken
  let rec1 := recordDonationAndSplit s source amount cfg.npub1 cfg.npub2
  let afterTx :=
    if rec1.1.isNew then
      let t1 := triggerPayoutsIfThreshold rec1.2 cfg.npub1 cfg.threshold
      let t2 := triggerPayoutsIfThreshold t1.2.2 cfg.npub2 cfg.threshold
      (t1.1 ++ t2.1, t2.2.2)
    else ([], rec1.2)
  let fin := processPendingPayouts payEnv afterTx.1 0 afterTx.2
  (source, rec1.1, fin.1, fin.2)

/-- The function `redeemCashuAndRecordSplit` of `src/utils/database.ts` (lines 640-698):
redeem the token through the access gate; unless the decision is
`ACCESS_GRANTED` with a positive amount (`!res.amount` also rejects a zero
amount), return `accepted=false` with the reason and touch nothing; otherwise
run the donation/split transaction and the finalization loop. -/
def redeemCashuAndRecordSplit (hash : String → String) (cfg : SplitConfig)
    (payEnv : Nat → PayAttempt) (encodedToken : String) (minAmount : Int)
    (outcome : FetchOutcome) (s : DBState) : RedeemAndSplitResult × DBState :=
  let res := processCashuToken encodedToken minAmount outcome
  if res.decision ≠ CashuDecision.ACCESS_GRANTED ∨ res.amount = 0 ∨ res.amount ≤ 0 then
    ({ accepted := false, amount := res.amount, reason := some res.reason,
       donationRecorded := none, donationSource := none, splits := none,
       payouts := none, validation := none, preventedDuplicate := none }, s)
  else
    let flow := grantedSplitFlow hash cfg payEnv encodedToken res.amount s
    ({ accepted := true, amount := res.amount, reason := none,
       donationRecorded := some (decide (0 < flow.2.1.splits.length)),
       donationSource := some flow.1, splits := some flow.2.1.splits,
       payouts := some flow.2.2.1, validation := none,
       preventedDuplicate := none }, flow.2.2.2)

/-- The function `redeemCashuAndRecordSplitWithValidation` of `src/utils/database.ts`
(lines 505-638): like `redeemCashuAndRecordSplit`, but with an explicit
duplicate pre-check on the token fingerprint inside the transaction — a hit
aborts with `preventedDuplicate=true` and no write — and an advisory
`validation` field in every outcome.  The advisory routine only reads, so its
summary is the `validation` argument. -/
def redeemCashuAndRecordSplitWithValidation (hash : String → String)
    (cfg : SplitConfig) (payEnv : Nat → PayAttempt) (validation : ValidationInfo)
    (encodedToken : String) (minAmount : Int) (outcome : FetchOutcome)
    (s : DBState) : RedeemAndSplitResult × DBState :=
  let res := processCashuToken encodedToken minAmount outcome
  if res.decision ≠ CashuDecision.ACCESS_GRANTED ∨ res.amount = 0 ∨ res.amount ≤ 0 then
    ({ accepted := false, amount := res.amount, reason := some res.reason,
       donationRecorded := none, donationSource := none, splits := none,
       payouts := none,
       validation := some { isValid := false, reason := "Cashu token rejected",
                            recommendations :=
                              ["Ensure token is valid and meets minimum threshold"] },
       preventedDuplicate := none }, s)
  else
    let source := hash encodedToken
    if s.donations.any fun d => d.source == source then
      ({ accepted := false, amount := res.amount,
         reason := some "Duplicate token already processed",
         donationRecorded := some false, donationSource := some source,
         splits := none, payouts := none, validation := some validation,
         preventedDuplicate := some true }, s)
    else
      let flow := grantedSplitFlow hash cfg payEnv encodedToken res.amount s
      ({ accepted := true, amount := res.amount, reason := none,
         donationRecorded := some (decide (0 < flow.2.1.splits.length)),
         donationSource := some flow.1, splits := some flow.2.1.splits,
         payouts := some flow.2.2.1, validation := some validation,
         preventedDuplicate := some false }, flow.2.2.2)

/-- One leaderboard append request, for stating sequence-of-appends facts. -/
structure LBCall where
  npub : String
  initials : String
  sats : Int
  refId : String
deriving DecidableEq, Repr

/-- Apply a sequence of `updateLeaderboard` calls in order; a thrown validation
error leaves the state untouched (the source writes nothing before throwing). -/
def applyCalls (calls : List LBCall) (s : DBState) : DBState :=
  match calls with
  | [] => s
  | c :: rest =>
    match updateLeaderboard c.npub c.initials c.sats c.refId s with
    | Except.ok r => applyCalls rest r.2
    | Except.error _ => applyCalls rest s

/-- The source-level consistency invariant of the leaderboard subsystem: every
stored aggregate equals the sum of its events, and (the FOREIGN KEY of
`leaderboard_updates`) every event's npub has an entry row. -/
def lbConsistent (s : DBState) : Prop :=
  (∀ e ∈ s.leaderboard_entries, e.total_sats_lost = sumUpdates s e.npub) ∧
  (∀ u ∈ s.leaderboard_updates, ∃ e ∈ s.leaderboard_entries, e.npub = u.npub)

instance (s : DBState) : Decidable (lbConsistent s) := by
  unfold lbConsistent
  infer_instance

/-- An empty database, used by the concrete witnesses. -/
def dbEmpty : DBState :=
  { leaderboard_entries := [], leaderboard_updates := [], donations := [],
    split_accumulators := [], payouts := [], nextPayoutId := 0 }

/-- The `k` pending payout rows that the chunking loop inserts, with
consecutive AUTOINCREMENT ids starting at `startId`. -/
def mkChunkRows (npub : String) (threshold : Int) : Nat → Nat → List Payout
  | _, 0 => []
  | startId, k + 1 =>
    { id := startId, npub := npub, amount_sats := threshold,
      status := PayoutStatus.pending, external_ref := none, error := none,
      finalized := false } :: mkChunkRows npub threshold (startId + 1) k

/-- A concrete state for the C10 witness: one recorded event with reference id
`g1` belonging to player `orig`. -/
def sC10 : DBState :=
  { dbEmpty with
    leaderboard_entries := [{ npub := "orig", initials := "AAA",
                              total_sats_lost := 10 }],
    leaderboard_updates := [{ ref_id := "g1", npub := "orig",
                              initials := "AAA", sats_lost := 10 }] }

/-- A granted Cashuwall outcome carrying 100 sats, used by the witnesses. -/
def grantedOutcome : FetchOutcome :=
  FetchOutcome.response 200
    { accepted := some true, amount := some 100, reason := none, error := none,
      message := none }

/-- A state in which fingerprint `fp:cashuAtok` was already recorded, used by
the C2 witness (the identity-like `fun t => "fp:" ++ t` stands in for the
external sha256 oracle). -/
def sC2 : DBState :=
  { dbEmpty with
    donations := [{ source := "fp:cashuAtok", amount_sats := 100 }],
    split_accumulators := [{ npub := "n1", owed_sats := 50 },
                           { npub := "n2", owed_sats := 50 }] }

/-- A concrete state for the C6 witness: one pending payout of 300 sats for
payee `n1`, whose accumulator owes 500. -/
def sC6 : DBState :=
  { dbEmpty with
    split_accumulators := [{ npub := "n1", owed_sats := 500 }],
    payouts := [{ id := 7, npub := "n1", amount_sats := 300,
                  status := PayoutStatus.pending, external_ref := none,
                  error := none, finalized := false }],
    nextPayoutId := 8 }

/-- A consistent concrete state for the C3 witness: one entry at 5 sats backed
by one 5-sat event. -/
def sC3 : DBState :=
  { dbEmpty with
    leaderboard_entries := [{ npub := "p", initials := "ABC",
                              total_sats_lost := 5 }],
    leaderboard_updates := [{ ref_id := "r", npub := "p", initials := "ABC",
                              sats_lost := 5 }] }

/-! ## Helper lemmas -/

/-- Lemma: `find?` commutes with a `map` whose function does not change the truth of
the predicate (SQL `UPDATE` statements never change the key they select by). -/
theorem find?_map_preserve {α : Type} (l : List α) (p : α → Bool) (f : α → α)
    (hf : ∀ a, p (f a) = p a) :
    (l.map f).find? p = (l.find? p).map f := by
  rw [List.find?_map]
  have h : p ∘ f = p := funext hf
  rw [h]

/-- A filtered sum over a list none of whose elements match is zero. -/
theorem filter_sum_zero {α : Type} (l : List α) (p : α → Bool) (g : α → Int)
    (h : ∀ a ∈ l, p a = false) : ((l.filter p).map g).sum = 0 := by
  have : l.filter p = [] := List.filter_eq_nil.mpr (by
    intro a ha
    simp [h a ha])
  simp [this]


/-! ## Claim C7: the donation split -/

/-- Claim C7: for every positive integer amount `A` and fresh fingerprint, the
donation split in `recordDonationAndSplit` assigns `ceil(A/2)` to the first
configured payee and `floor(A/2)` to the second; the shares sum to `A`, are
equal when `A` is even, and the first exceeds the second by exactly `1` when
`A` is odd. -/
theorem recordDonationAndSplit_shares (s : DBState) (source : String) (A : Int)
    (npub1 npub2 : String) (hA : 0 < A)
    (hfresh : (s.donations.any fun d => d.source == source) = false) :
    ((recordDonationAndSplit s source A npub1 npub2).1.splits.map fun t => t.npub)
        = [npub1, npub2] ∧
    ((recordDonationAndSplit s source A npub1 npub2).1.splits.map fun t => t.added)
        = [ceilHalf A, floorHalf A] ∧
    ceilHalf A + floorHalf A = A ∧
    (A % 2 = 0 → ceilHalf A = floorHalf A) ∧
    (A % 2 = 1 → ceilHalf A = floorHalf A + 1) := by
  unfold recordDonationAndSplit
  rw [hfresh]
  refine ⟨by simp, by simp, ?_, ?_, ?_⟩ <;> · unfold ceilHalf floorHalf; omega

/-- Witness for C7 at `A = 101` on the empty database. -/
theorem recordDonationAndSplit_shares_witness :
    ((recordDonationAndSplit dbEmpty "f1" 101 "n1" "n2").1.splits.map fun t => t.added)
        = [51, 50] ∧
    ceilHalf 101 + floorHalf 101 = 101 ∧ ceilHalf 101 = floorHalf 101 + 1 := by
  have h := recordDonationAndSplit_shares dbEmpty "f1" 101 "n1" "n2"
    (by decide) (by decide)
  exact ⟨h.2.1, h.2.2.1, h.2.2.2.2 (by decide)⟩

/-! ## Claim C9: reconciliation with no aggregate row -/

/-- Claim C9: for a subject key with no `leaderboard_entries` row,
`validateAndSyncPlayerScore` returns the all-zero no-drift report and writes
nothing — for every state, in particular states whose `leaderboard_updates`
hold events with positive amounts for that key, so that drift between an
absent aggregate row and a non-zero event sum is neither reported nor
repaired. -/
theorem validateAndSyncPlayerScore_absent_entry (npub : String) (s : DBState)
    (hn : npub ≠ "") (habs : findEntry s npub = none) :
    validateAndSyncPlayerScore npub s =
      Except.ok ({ wasInconsistent := false, oldTotal := 0, newTotal := 0,
                   difference := 0 }, s) := by
  unfold validateAndSyncPlayerScore
  rw [if_neg hn, habs]

/-- Witness for C9: the key has an event of 50 sats but no aggregate row; the
event sum is 50, yet reconciliation reports no inconsistency and repairs
nothing. -/
theorem validateAndSyncPlayerScore_absent_entry_witness :
    sumUpdates { dbEmpty with
                 leaderboard_updates := [{ ref_id := "r1", npub := "p9",
                                           initials := "ABC", sats_lost := 50 }] } "p9" = 50 ∧
    validateAndSyncPlayerScore "p9"
        { dbEmpty with
          leaderboard_updates := [{ ref_id := "r1", npub := "p9",
                                    initials := "ABC", sats_lost := 50 }] } =
      Except.ok ({ wasInconsistent := false, oldTotal := 0, newTotal := 0,
                   difference := 0 },
                 { dbEmpty with
                   leaderboard_updates := [{ ref_id := "r1", npub := "p9",
                                             initials := "ABC", sats_lost := 50 }] }) :=
  ⟨by decide,
   validateAndSyncPlayerScore_absent_entry "p9" _ (by decide) (by decide)⟩

/-! ## Claim C5: the periodic drain policy -/

/-- Claim C5: for every payee entry evaluated by the periodic drain policy,
with `available = max(0, storedAggregate - sumOfPendingIntentAmounts)`: below
the configured minimum no payment intent is created (and nothing is written);
otherwise exactly one pending intent is created whose amount is the entire
available value. -/
theorem drainDispatchStep_policy (s : DBState) (e : WorkerEntry)
    (hn : e.npub ≠ "") (hl : e.lightningAddress ≠ "") (hm : 0 < e.min_amount) :
    (max 0 (getOwed s e.npub - getPendingSum s e.npub) < e.min_amount →
      drainDispatchStep s e = (none, s)) ∧
    (e.min_amount ≤ max 0 (getOwed s e.npub - getPendingSum s e.npub) →
      drainDispatchStep s e =
        (some s.nextPayoutId,
         { s with
           payouts := s.payouts ++
             [{ id := s.nextPayoutId, npub := e.npub,
                amount_sats := max 0 (getOwed s e.npub - getPendingSum s e.npub),
                status := PayoutStatus.pending, external_ref := none, error := none,
                finalized := false }],
           nextPayoutId := s.nextPayoutId + 1 })) := by
  have hvalid : ¬(e.npub = "" ∨ e.lightningAddress = "" ∨ e.min_amount = 0 ∨
      e.min_amount ≤ 0) := by
    push_neg
    exact ⟨hn, hl, by omega, by omega⟩
  constructor
  · intro hlt
    unfold drainDispatchStep
    rw [if_neg hvalid, if_pos hlt]
  · intro hge
    unfold drainDispatchStep
    rw [if_neg hvalid, if_neg (by omega)]
    rfl

/-- Witness for C5: owed 1500, one pending intent of 400 outstanding, minimum
1000: available is 1100, so one pending intent for the whole 1100 is created. -/
theorem drainDispatchStep_policy_witness :
    drainDispatchStep
        { dbEmpty with
          split_accumulators := [{ npub := "w1", owed_sats := 1500 }],
          payouts := [{ id := 0, npub := "w1", amount_sats := 400,
                        status := PayoutStatus.pending, external_ref := none,
                        error := none, finalized := false }],
          nextPayoutId := 1 }
        { npub := "w1", lightningAddress := "w1@pay.me", min_amount := 1000,
          comment := none } =
      (some 1,
       { dbEmpty with
         split_accumulators := [{ npub := "w1", owed_sats := 1500 }],
         payouts := [{ id := 0, npub := "w1", amount_sats := 400,
                       status := PayoutStatus.pending, external_ref := none,
                       error := none, finalized := false },
                     { id := 1, npub := "w1", amount_sats := 1100,
                       status := PayoutStatus.pending, external_ref := none,
                       error := none, finalized := false }],
         nextPayoutId := 2 }) := by
  have h := (drainDispatchStep_policy
      { dbEmpty with
        split_accumulators := [{ npub := "w1", owed_sats := 1500 }],
        payouts := [{ id := 0, npub := "w1", amount_sats := 400,
                      status := PayoutStatus.pending, external_ref := none,
                      error := none, finalized := false }],
        nextPayoutId := 1 }
      { npub := "w1", lightningAddress := "w1@pay.me", min_amount := 1000,
        comment := none }
      (by decide) (by decide) (by decide)).2 (by decide)
  rw [h]
  decide

/-! ## Claim C4: chunked dispatch -/


theorem mkChunkRows_length (npub : String) (threshold : Int) :
    ∀ startId k, (mkChunkRows npub threshold startId k).length = k := by
  intro startId k
  induction k generalizing startId with
  | zero => rfl
  | succ k ih => simp [mkChunkRows, ih]

theorem mkChunkRows_mem (npub : String) (threshold : Int) :
    ∀ startId k, ∀ p ∈ mkChunkRows npub threshold startId k,
      p.status = PayoutStatus.pending ∧ p.amount_sats = threshold ∧ p.npub = npub := by
  intro startId k
  induction k generalizing startId with
  | zero => intro p hp; cases hp
  | succ k ih =>
      intro p hp
      rcases List.mem_cons.mp hp with h | h
      · subst h; exact ⟨rfl, rfl, rfl⟩
      · exact ih (startId + 1) p h

theorem payoutLoop_spec (npub : String) (θ : Int) (r : Int) (h0 : 0 ≤ r)
    (h1 : r < θ) :
    ∀ (k : Nat), ∀ (fuel : Nat), ∀ (s : DBState), k ≤ fuel →
      payoutLoop npub θ fuel ((k : Int) * θ + r) s =
        (List.replicate k { npub := npub, amount := θ,
                            status := PayoutStatus.pending, externalRef := none },
         r,
         { s with payouts := s.payouts ++ mkChunkRows npub θ s.nextPayoutId k,
                  nextPayoutId := s.nextPayoutId + k }) := by
  have hθ : 0 < θ := by omega
  intro k
  induction k with
  | zero =>
      intro fuel s _
      have h00 : ((0 : Nat) : Int) * θ + r = r := by push_cast; ring
      rw [h00]
      have hguard : ¬θ ≤ r := by omega
      cases fuel with
      | zero => simp [payoutLoop, mkChunkRows]
      | succ f =>
          rw [payoutLoop, if_neg hguard]
          simp [mkChunkRows]
  | succ k ih =>
      intro fuel s hfuel
      cases fuel with
      | zero => omega
      | succ f =>
          have hk : 0 ≤ (k : Int) * θ := by positivity
          have hguard : θ ≤ ((k + 1 : Nat) : Int) * θ + r := by push_cast; nlinarith
          have harg : ((k + 1 : Nat) : Int) * θ + r - θ = (k : Int) * θ + r := by
            push_cast; ring
          rw [payoutLoop, if_pos hguard, harg]
          dsimp only
          simp only [createPayoutRow]
          rw [ih f _ (by omega)]
          dsimp only
          have hnext : s.nextPayoutId + 1 + k = s.nextPayoutId + (k + 1) := by omega
          simp only [List.replicate_succ, mkChunkRows, List.append_assoc,
            List.singleton_append, hnext]

/-- Claim C4: with the stored aggregate at `k * floor + r` (`0 ≤ r < floor`),
one invocation of `triggerPayoutsIfThreshold` creates exactly `k` pending
payment intents of exactly `floor` sats each, leaves `r` in the in-memory
running total, and leaves the stored accumulator untouched. -/
theorem triggerPayoutsIfThreshold_chunked (s : DBState) (npub : String)
    (θ : Int) (k : Nat) (r : Int)
    (howed : getOwed s npub = k * θ + r) (h0 : 0 ≤ r) (h1 : r < θ) :
    (triggerPayoutsIfThreshold s npub θ).1.length = k ∧
    (∀ p ∈ (triggerPayoutsIfThreshold s npub θ).1,
        p.amount = θ ∧ p.status = PayoutStatus.pending ∧ p.npub = npub) ∧
    (triggerPayoutsIfThreshold s npub θ).2.1 = r ∧
    (triggerPayoutsIfThreshold s npub θ).2.2.payouts =
        s.payouts ++ mkChunkRows npub θ s.nextPayoutId k ∧
    (mkChunkRows npub θ s.nextPayoutId k).length = k ∧
    (∀ q ∈ mkChunkRows npub θ s.nextPayoutId k,
        q.status = PayoutStatus.pending ∧ q.amount_sats = θ ∧ q.npub = npub) ∧
    (triggerPayoutsIfThreshold s npub θ).2.2.split_accumulators =
        s.split_accumulators ∧
    getOwed (triggerPayoutsIfThreshold s npub θ).2.2 npub = getOwed s npub := by
  have hθ : 0 < θ := by omega
  have hkle : (k : Int) ≤ (k : Int) * θ := by nlinarith [Nat.cast_nonneg (α := Int) k]
  have hfuel : k ≤ (getOwed s npub).toNat + 1 := by
    rw [howed]; omega
  have hloop := payoutLoop_spec npub θ r h0 h1 k ((getOwed s npub).toNat + 1) s hfuel
  have htrig : triggerPayoutsIfThreshold s npub θ =
      (List.replicate k { npub := npub, amount := θ,
                          status := PayoutStatus.pending, externalRef := none },
       r,
       { s with payouts := s.payouts ++ mkChunkRows npub θ s.nextPayoutId k,
                nextPayoutId := s.nextPayoutId + k }) := by
    unfold triggerPayoutsIfThreshold
    rw [howed] at hloop ⊢
    exact hloop
  rw [htrig]
  refine ⟨by simp, ?_, rfl, rfl, mkChunkRows_length npub θ s.nextPayoutId k,
    mkChunkRows_mem npub θ s.nextPayoutId k, rfl, rfl⟩
  intro p hp
  have := List.eq_of_mem_replicate hp
  subst this
  exact ⟨rfl, rfl, rfl⟩

/-- Witness for C4: the spec scenario — aggregate at 1999, floor 1000 — yields
one pending intent of 1000 and an in-memory remainder of 999. -/
theorem triggerPayoutsIfThreshold_chunked_witness :
    (triggerPayoutsIfThreshold
        { dbEmpty with split_accumulators := [{ npub := "n1", owed_sats := 1999 }] }
        "n1" 1000).1.length = 1 ∧
    (triggerPayoutsIfThreshold
        { dbEmpty with split_accumulators := [{ npub := "n1", owed_sats := 1999 }] }
        "n1" 1000).2.1 = 999 ∧
    getOwed (triggerPayoutsIfThreshold
        { dbEmpty with split_accumulators := [{ npub := "n1", owed_sats := 1999 }] }
        "n1" 1000).2.2 "n1" = 1999 := by
  have h := triggerPayoutsIfThreshold_chunked
    { dbEmpty with split_accumulators := [{ npub := "n1", owed_sats := 1999 }] }
    "n1" 1000 1 999 (by decide) (by decide) (by decide)
  refine ⟨h.1, h.2.2.1, ?_⟩
  rw [h.2.2.2.2.2.2.2]
  decide

/-! ## Claims C1 and C10: refId-keyed deduplication of `updateLeaderboard` -/

/-- Claim C1: appending the same reference id twice mutates the aggregate
exactly once — the first call increases the subject's stored total by `sats`
and reports it, the second call writes nothing (the state is returned
unchanged) and reports `isDuplicate=true` with the subject's current,
unchanged aggregate total. -/
theorem updateLeaderboard_idempotent_pair (npub initials : String) (sats : Int)
    (refId : String) (s : DBState)
    (hn : npub ≠ "") (hi : initials.length = 3) (hs : 0 < sats) (hr : refId ≠ "")
    (hfresh : findUpdateByRef s refId = none) :
    ∃ r1 s1, updateLeaderboard npub initials sats refId s = Except.ok (r1, s1) ∧
      r1.isDuplicate = false ∧
      entryTotal s1 npub = entryTotal s npub + sats ∧
      r1.totalSats = entryTotal s1 npub ∧
      updateLeaderboard npub initials sats refId s1 =
        Except.ok ({ totalSats := entryTotal s1 npub, isDuplicate := true }, s1) := by
  have hine : initials ≠ "" := by
    intro h
    rw [h] at hi
    exact absurd hi (by decide)
  have hguard : ¬(npub = "" ∨ initials = "" ∨ sats ≤ 0 ∨ refId = "") := by
    push_neg
    exact ⟨hn, hine, by omega, hr⟩
  have hlen : ¬(initials.length ≠ 3) := by simp [hi]
  cases hfind : findEntry s npub with
  | some e =>
      have hfind' : s.leaderboard_entries.find? (fun r => r.npub == npub) = some e := hfind
      have hbeq : (e.npub == npub) = true := by
        have h := List.find?_some hfind'
        simpa using h
      refine ⟨{ totalSats := e.total_sats_lost + sats, isDuplicate := false },
        { s with
          leaderboard_entries := s.leaderboard_entries.map fun r =>
            if r.npub == npub then
              { r with total_sats_lost := e.total_sats_lost + sats,
                       initials := toUpperJS initials }
            else r,
          leaderboard_updates := s.leaderboard_updates ++
            [{ ref_id := refId, npub := npub, initials := toUpperJS initials,
               sats_lost := sats }] }, ?_, rfl, ?_, ?_, ?_⟩
      · unfold updateLeaderboard
        rw [if_neg hguard, if_neg hlen, hfresh, hfind]
      · -- the aggregate was mutated exactly once, by sats
        have hmap : ∀ a : LBEntry,
            ((if a.npub == npub then
                { a with total_sats_lost := e.total_sats_lost + sats,
                         initials := toUpperJS initials }
              else a).npub == npub) = (a.npub == npub) := by
          intro a
          by_cases h : (a.npub == npub) = true <;> simp [h]
        unfold findEntry at hfind
        unfold entryTotal findEntry
        dsimp only
        rw [find?_map_preserve _ _ _ hmap, hfind]
        have heq : e.npub = npub := by simpa using hbeq
        simp [hbeq, heq]
      · -- the first call reports the new total
        have hmap : ∀ a : LBEntry,
            ((if a.npub == npub then
                { a with total_sats_lost := e.total_sats_lost + sats,
                         initials := toUpperJS initials }
              else a).npub == npub) = (a.npub == npub) := by
          intro a
          by_cases h : (a.npub == npub) = true <;> simp [h]
        unfold findEntry at hfind
        unfold entryTotal findEntry
        dsimp only
        rw [find?_map_preserve _ _ _ hmap, hfind]
        have heq : e.npub = npub := by simpa using hbeq
        simp [hbeq, heq]
      · -- the second call hits the duplicate branch and writes nothing
        have hdup : findUpdateByRef
            { s with
              leaderboard_entries := s.leaderboard_entries.map fun r =>
                if r.npub == npub then
                  { r with total_sats_lost := e.total_sats_lost + sats,
                           initials := toUpperJS initials }
                else r,
              leaderboard_updates := s.leaderboard_updates ++
                [{ ref_id := refId, npub := npub, initials := toUpperJS initials,
                   sats_lost := sats }] } refId =
            some { ref_id := refId, npub := npub, initials := toUpperJS initials,
                   sats_lost := sats } := by
          unfold findUpdateByRef at hfresh ⊢
          dsimp only
          rw [List.find?_append, hfresh]
          simp
        unfold updateLeaderboard
        rw [if_neg hguard, if_neg hlen, hdup]
  | none =>
      have htot0 : entryTotal s npub = 0 := by
        unfold entryTotal
        rw [hfind]
        rfl
      refine ⟨{ totalSats := sats, isDuplicate := false },
        { s with
          leaderboard_entries := s.leaderboard_entries ++
            [{ npub := npub, initials := toUpperJS initials, total_sats_lost := sats }],
          leaderboard_updates := s.leaderboard_updates ++
            [{ ref_id := refId, npub := npub, initials := toUpperJS initials,
               sats_lost := sats }] }, ?_, rfl, ?_, ?_, ?_⟩
      · unfold updateLeaderboard
        rw [if_neg hguard, if_neg hlen, hfresh, hfind]
      · rw [htot0]
        unfold findEntry at hfind
        unfold entryTotal findEntry
        dsimp only
        rw [List.find?_append, hfind]
        simp
      · unfold findEntry at hfind
        unfold entryTotal findEntry
        dsimp only
        rw [List.find?_append, hfind]
        simp
      · have hdup : findUpdateByRef
            { s with
              leaderboard_entries := s.leaderboard_entries ++
                [{ npub := npub, initials := toUpperJS initials,
                   total_sats_lost := sats }],
              leaderboard_updates := s.leaderboard_updates ++
                [{ ref_id := refId, npub := npub, initials := toUpperJS initials,
                   sats_lost := sats }] } refId =
            some { ref_id := refId, npub := npub, initials := toUpperJS initials,
                   sats_lost := sats } := by
          unfold findUpdateByRef at hfresh ⊢
          dsimp only
          rw [List.find?_append, hfresh]
          simp
        unfold updateLeaderboard
        rw [if_neg hguard, if_neg hlen, hdup]

/-- Witness for C1 on the empty database. -/
theorem updateLeaderboard_idempotent_pair_witness :
    ∃ r1 s1, updateLeaderboard "p1" "abc" 21 "g1" dbEmpty = Except.ok (r1, s1) ∧
      r1.isDuplicate = false ∧
      entryTotal s1 "p1" = entryTotal dbEmpty "p1" + 21 ∧
      r1.totalSats = entryTotal s1 "p1" ∧
      updateLeaderboard "p1" "abc" 21 "g1" s1 =
        Except.ok ({ totalSats := entryTotal s1 "p1", isDuplicate := true }, s1) :=
  updateLeaderboard_idempotent_pair "p1" "abc" 21 "g1" dbEmpty (by decide)
    (by decide) (by decide) (by decide) (by decide)

/-- Claim C10: duplicate detection is keyed by the reference id alone — any
call whose `refId` is already recorded writes nothing, whatever its `npub`,
`initials` or `sats` are, and the reported total is the stored total of the
`npub` argument of this very call (`0` when that npub has no entry row). -/
theorem updateLeaderboard_dup_refId_only (npub initials : String) (sats : Int)
    (refId : String) (s : DBState) (u : LBUpdate)
    (hn : npub ≠ "") (hi : initials.length = 3) (hs : 0 < sats) (hr : refId ≠ "")
    (hdup : findUpdateByRef s refId = some u) :
    updateLeaderboard npub initials sats refId s =
      Except.ok ({ totalSats := entryTotal s npub, isDuplicate := true }, s) ∧
    (findEntry s npub = none → entryTotal s npub = 0) := by
  have hine : initials ≠ "" := by
    intro h
    rw [h] at hi
    exact absurd hi (by decide)
  have hguard : ¬(npub = "" ∨ initials = "" ∨ sats ≤ 0 ∨ refId = "") := by
    push_neg
    exact ⟨hn, hine, by omega, hr⟩
  have hlen : ¬(initials.length ≠ 3) := by simp [hi]
  constructor
  · unfold updateLeaderboard
    rw [if_neg hguard, if_neg hlen, hdup]
  · intro h
    unfold entryTotal
    rw [h]
    rfl


/-- Witness for C10: the recorded event has npub `orig` and 10 sats; the
duplicate call supplies a different npub, different initials and a different
amount, and still gets the no-write duplicate answer with the total (0) of
its own npub. -/
theorem updateLeaderboard_dup_refId_only_witness :
    updateLeaderboard "other" "BBB" 99 "g1" sC10 =
      Except.ok ({ totalSats := entryTotal sC10 "other", isDuplicate := true }, sC10) ∧
    entryTotal sC10 "other" = 0 := by
  have h := updateLeaderboard_dup_refId_only "other" "BBB" 99 "g1" sC10
    { ref_id := "g1", npub := "orig", initials := "AAA", sats_lost := 10 }
    (by decide) (by decide) (by decide) (by decide) (by decide)
  exact ⟨h.1, h.2 (by decide)⟩

/-! ## Claim C2: fingerprint-level duplicate prevention of donation ingestion -/

/-- Claim C2: a donation ingestion call whose token fingerprint already exists
in the `donations` table reports `preventedDuplicate=true` and has no further
effect — the state is returned unchanged, so no split is applied, both payees'
accumulators keep their values, and no payment intent is created. -/
theorem redeemWithValidation_duplicate_no_effect (hash : String → String)
    (cfg : SplitConfig) (payEnv : Nat → PayAttempt) (validation : ValidationInfo)
    (token : String) (minAmount : Int) (outcome : FetchOutcome) (s : DBState)
    (hgr : (processCashuToken token minAmount outcome).decision =
      CashuDecision.ACCESS_GRANTED)
    (hpos : 0 < (processCashuToken token minAmount outcome).amount)
    (hdup : (s.donations.any fun d => d.source == hash token) = true) :
    redeemCashuAndRecordSplitWithValidation hash cfg payEnv validation token
        minAmount outcome s =
      ({ accepted := false,
         amount := (processCashuToken token minAmount outcome).amount,
         reason := some "Duplicate token already processed",
         donationRecorded := some false, donationSource := some (hash token),
         splits := none, payouts := none, validation := some validation,
         preventedDuplicate := some true }, s) := by
  unfold redeemCashuAndRecordSplitWithValidation
  dsimp only
  rw [if_neg (by push_neg; exact ⟨hgr, by omega, by omega⟩)]
  simp only [hdup, if_true]



/-- Witness for C2: re-submitting the already-recorded fingerprint leaves both
accumulators at 50 and creates no payout. -/
theorem redeemWithValidation_duplicate_no_effect_witness :
    redeemCashuAndRecordSplitWithValidation (fun t => "fp:" ++ t)
        { npub1 := "n1", npub2 := "n2", threshold := 1000 }
        (fun _ => { ok := true, externalRef := some "x", error := none })
        { isValid := true, reason := "No validation performed", recommendations := [] }
        "cashuAtok" 21 grantedOutcome sC2 =
      ({ accepted := false, amount := 100,
         reason := some "Duplicate token already processed",
         donationRecorded := some false, donationSource := some "fp:cashuAtok",
         splits := none, payouts := none,
         validation := some { isValid := true, reason := "No validation performed",
                              recommendations := [] },
         preventedDuplicate := some true }, sC2) := by
  have h := redeemWithValidation_duplicate_no_effect (fun t => "fp:" ++ t)
    { npub1 := "n1", npub2 := "n2", threshold := 1000 }
    (fun _ => { ok := true, externalRef := some "x", error := none })
    { isValid := true, reason := "No validation performed", recommendations := [] }
    "cashuAtok" 21 grantedOutcome sC2 (by decide) (by decide) (by decide)
  rw [h]
  decide

/-! ## Claim C8: the access-gate boundary never throws -/

/-- Claim C8: `processCashuToken` is a total function of the token and of the
fetch outcome (so no failure escapes its boundary as an exception), and every
failure mode — unreachable collaborator, timeout, non-2xx response, malformed
(whitespace-only) token — yields a structured `ACCESS_DENIED` result; and
`redeemCashuAndRecordSplit` mutates no ledger state and returns
`accepted=false` unless the decision is `ACCESS_GRANTED` with a strictly
positive amount. -/
theorem cashu_boundary_safety :
    (∀ token m msg,
      (processCashuToken token m (FetchOutcome.netError msg)).decision =
        CashuDecision.ACCESS_DENIED) ∧
    (∀ token m,
      (processCashuToken token m FetchOutcome.timeout).decision =
        CashuDecision.ACCESS_DENIED) ∧
    (∀ token m status body, ¬(200 ≤ status ∧ status < 300) →
      (processCashuToken token m (FetchOutcome.response status body)).decision =
        CashuDecision.ACCESS_DENIED) ∧
    (∀ token m outcome, (trimJS token).length = 0 →
      (processCashuToken token m outcome).decision = CashuDecision.ACCESS_DENIED) ∧
    (∀ hash cfg payEnv token m outcome s,
      ((processCashuToken token m outcome).decision ≠ CashuDecision.ACCESS_GRANTED ∨
       (processCashuToken token m outcome).amount ≤ 0) →
      (redeemCashuAndRecordSplit hash cfg payEnv token m outcome s).2 = s ∧
      (redeemCashuAndRecordSplit hash cfg payEnv token m outcome s).1.accepted =
        false) := by
  refine ⟨?_, ?_, ?_, ?_, ?_⟩
  · intro token m msg
    unfold processCashuToken
    by_cases h : (trimJS token).length = 0 <;> simp [h]
  · intro token m
    unfold processCashuToken
    by_cases h : (trimJS token).length = 0 <;> simp [h]
  · intro token m status body hst
    unfold processCashuToken
    by_cases h : (trimJS token).length = 0 <;> simp [h, hst]
  · intro token m outcome h
    unfold processCashuToken
    simp [h]
  · intro hash cfg payEnv token m outcome s hden
    have hcond : (processCashuToken token m outcome).decision ≠
        CashuDecision.ACCESS_GRANTED ∨
        (processCashuToken token m outcome).amount = 0 ∨
        (processCashuToken token m outcome).amount ≤ 0 := by
      rcases hden with h | h
      · exact Or.inl h
      · exact Or.inr (Or.inr h)
    unfold redeemCashuAndRecordSplit
    dsimp only
    rw [if_pos hcond]
    exact ⟨rfl, rfl⟩

/-- Witness for C8: a timeout is answered with `ACCESS_DENIED`, and the
ingestion path leaves the store untouched and returns `accepted=false`. -/
theorem cashu_boundary_safety_witness :
    (processCashuToken "cashuAtok" 21 FetchOutcome.timeout).decision =
      CashuDecision.ACCESS_DENIED ∧
    (redeemCashuAndRecordSplit (fun t => "fp:" ++ t)
        { npub1 := "n1", npub2 := "n2", threshold := 1000 }
        (fun _ => { ok := true, externalRef := some "x", error := none })
        "cashuAtok" 21 FetchOutcome.timeout dbEmpty).2 = dbEmpty ∧
    (redeemCashuAndRecordSplit (fun t => "fp:" ++ t)
        { npub1 := "n1", npub2 := "n2", threshold := 1000 }
        (fun _ => { ok := true, externalRef := some "x", error := none })
        "cashuAtok" 21 FetchOutcome.timeout dbEmpty).1.accepted = false := by
  have h1 := cashu_boundary_safety.2.1 "cashuAtok" 21
  have h2 := cashu_boundary_safety.2.2.2.2 (fun t => "fp:" ++ t)
    { npub1 := "n1", npub2 := "n2", threshold := 1000 }
    (fun _ => { ok := true, externalRef := some "x", error := none })
    "cashuAtok" 21 FetchOutcome.timeout dbEmpty (Or.inl (by decide))
  exact ⟨h1, h2.1, h2.2⟩

/-! ## Claim C6: payout finalization -/

/-- With pairwise-distinct ids, `find?` by a member's id returns that member. -/
theorem find?_id_unique (l : List Payout) (p : Payout)
    (hmem : p ∈ l) (huniq : l.Pairwise fun a b => a.id ≠ b.id) :
    l.find? (fun q => q.id == p.id) = some p := by
  induction l with
  | nil => cases hmem
  | cons a t ih =>
      rcases List.pairwise_cons.mp huniq with ⟨ha, ht⟩
      rcases List.mem_cons.mp hmem with h | h
      · subst h
        exact List.find?_cons_of_pos _ (by simp)
      · have hne : a.id ≠ p.id := ha p h
        rw [List.find?_cons_of_neg _ (by simpa using hne)]
        exact ih h ht

/-- Flipping exactly one pending row (identified by its unique id) out of the
pending status removes exactly its amount from the pending sum of its payee. -/
theorem pendingSum_flip_one (pid : Nat) (p : Payout) (g : Payout → Payout)
    (hgnpub : ∀ q, (g q).npub = q.npub)
    (hgamt : ∀ q, (g q).amount_sats = q.amount_sats)
    (hgstat : ∀ q, (g q).status ≠ PayoutStatus.pending) :
    ∀ (l : List Payout), p ∈ l → p.id = pid → p.status = PayoutStatus.pending →
      l.Pairwise (fun a b => a.id ≠ b.id) →
      (((l.map fun q => if q.id == pid then g q else q).filter fun q =>
          q.npub == p.npub && q.status == PayoutStatus.pending).map
        fun q => q.amount_sats).sum
        = ((l.filter fun q => q.npub == p.npub &&
              q.status == PayoutStatus.pending).map fun q => q.amount_sats).sum
          - p.amount_sats := by
  intro l
  induction l with
  | nil => intro hmem; cases hmem
  | cons a t ih =>
      intro hmem hid hpend huniq
      rcases List.pairwise_cons.mp huniq with ⟨ha, ht⟩
      rcases List.mem_cons.mp hmem with h | h
      · -- the flipped row is the head
        subst h
        have hmapt : t.map (fun q => if q.id == pid then g q else q) = t := by
          have hqid : ∀ q ∈ t, (if q.id == pid then g q else q) = q := by
            intro q hq
            have hne : (q.id == pid) = false := by
              rw [beq_eq_false_iff_ne, ← hid]
              exact Ne.symm (ha q hq)
            simp [hne]
          rw [List.map_congr_left hqid]
          simp
        have hheadflip : (p.id == pid) = true := by simp [hid]
        have hgdrop : ((g p).npub == p.npub &&
            ((g p).status == PayoutStatus.pending)) = false := by
          have h1 : ((g p).status == PayoutStatus.pending) = false := by
            rw [beq_eq_false_iff_ne]
            exact hgstat p
          simp [h1]
        have hheadkeep : (p.npub == p.npub &&
            (p.status == PayoutStatus.pending)) = true := by simp [hpend]
        simp only [List.map_cons]
        rw [if_pos hheadflip, hmapt, List.filter_cons, List.filter_cons,
          if_neg (by simp [hgdrop]), if_pos hheadkeep]
        simp only [List.map_cons, List.sum_cons]
        omega
      · -- the flipped row is in the tail
        have hne : a.id ≠ pid := by
          rw [← hid]
          exact ha p h
        have hih := ih h hid hpend ht
        simp only [List.map_cons]
        rw [if_neg (by simpa using hne), List.filter_cons, List.filter_cons]
        by_cases hpa : (a.npub == p.npub && (a.status == PayoutStatus.pending)) = true
        · rw [if_pos hpa, if_pos hpa]
          simp only [List.map_cons, List.sum_cons]
          omega
        · rw [if_neg (by simp [hpa]), if_neg (by simp [hpa])]
          exact hih

/-- Lemma: `findPendingPayout` only ever selects a pending row matching the payee and
amount; the returned id belongs to such a row. -/
theorem findPendingPayout_is_pending (s : DBState) (n : String) (a : Int)
    (pid : Nat) (h : findPendingPayout s n a = some pid) :
    ∃ q ∈ s.payouts, q.id = pid ∧ q.npub = n ∧ q.amount_sats = a ∧
      q.status = PayoutStatus.pending := by
  unfold findPendingPayout at h
  have hmem : pid ∈ (s.payouts.filter fun p =>
      p.npub == n && p.amount_sats == a && p.status == PayoutStatus.pending).map
      fun p => p.id := List.max?_mem max_choice h
  rcases List.mem_map.mp hmem with ⟨q, hq, hqid⟩
  rcases List.mem_filter.mp hq with ⟨hqmem, hqp⟩
  refine ⟨q, hqmem, hqid, ?_, ?_, ?_⟩ <;> simp_all

/-- After `markPayoutSent` on an id, every row carrying that id is `sent`. -/
theorem markPayoutSent_id_sent (s : DBState) (pid : Nat) (n : String) (amt : Int)
    (ref : Option String) :
    ∀ q ∈ (markPayoutSent s pid n amt ref).payouts, q.id = pid →
      q.status = PayoutStatus.sent := by
  intro q hq hqid
  unfold markPayoutSent at hq
  dsimp only at hq
  rcases List.mem_map.mp hq with ⟨r, _, hrq⟩
  by_cases h : (r.id == pid) = true
  · rw [if_pos h] at hrq
    rw [← hrq]
  · rw [if_neg h] at hrq
    subst hrq
    exact absurd hqid (by simpa using h)

/-- Claim C6: finalizing an intent as failed stores the error and the terminal
status/finalized-at but leaves the payee's aggregate unchanged, so the amount
re-enters `available = max(0, owed - pendingSum)` at the next dispatch
evaluation; finalizing as sent decrements the aggregate by exactly the intent
amount and stores the external reference; and the pending-row lookup can never
select (and hence never decrement for) the same intent id twice, because the
row stops being pending. -/
theorem payout_finalization_semantics (s : DBState) (pid : Nat) (p : Payout)
    (err : String) (amt : Int) (ref : Option String)
    (hmem : p ∈ s.payouts) (hid : p.id = pid)
    (hpend : p.status = PayoutStatus.pending)
    (huniq : s.payouts.Pairwise fun a b => a.id ≠ b.id)
    (hacc : (s.split_accumulators.any fun x => x.npub == p.npub) = true) :
    ((markPayoutFailed s pid err).split_accumulators = s.split_accumulators) ∧
    (∀ q, getOwed (markPayoutFailed s pid err) q = getOwed s q) ∧
    (getPayout (markPayoutFailed s pid err) pid =
      some { p with status := PayoutStatus.failed, finalized := true,
                    error := some err }) ∧
    (getPendingSum (markPayoutFailed s pid err) p.npub =
      getPendingSum s p.npub - p.amount_sats) ∧
    (max 0 (getOwed (markPayoutFailed s pid err) p.npub -
        getPendingSum (markPayoutFailed s pid err) p.npub) =
      max 0 (getOwed s p.npub - (getPendingSum s p.npub - p.amount_sats))) ∧
    (getOwed (markPayoutSent s pid p.npub amt ref) p.npub =
      getOwed s p.npub - amt) ∧
    (getPayout (markPayoutSent s pid p.npub amt ref) pid =
      some { p with status := PayoutStatus.sent, finalized := true,
                    external_ref := jsOrNull ref }) ∧
    (∀ n a, findPendingPayout (markPayoutSent s pid p.npub amt ref) n a ≠
      some pid) := by
  have hfound : s.payouts.find? (fun q => q.id == pid) = some p := by
    rw [← hid]
    exact find?_id_unique s.payouts p hmem huniq
  have hpbeq : (p.id == pid) = true := by simp [hid]
  have h4 : getPendingSum (markPayoutFailed s pid err) p.npub =
      getPendingSum s p.npub - p.amount_sats := by
    unfold getPendingSum markPayoutFailed
    dsimp only
    exact pendingSum_flip_one pid p
      (fun q => { q with status := PayoutStatus.failed, finalized := true,
                         error := some err })
      (fun q => rfl) (fun q => rfl) (fun q h => PayoutStatus.noConfusion h)
      s.payouts hmem hid hpend huniq
  refine ⟨rfl, fun q => rfl, ?_, h4, ?_, ?_, ?_, ?_⟩
  · -- the failed row stores the error and the terminal status
    unfold getPayout markPayoutFailed
    dsimp only
    rw [find?_map_preserve _ _ _ (fun a => by
      by_cases h : (a.id == pid) = true <;> simp [h]), hfound]
    simp [hid]
  · -- the failed amount re-enters availability
    rw [h4]
    rfl
  · -- sent: the aggregate is decremented by exactly the intent amount
    have hex : ∃ a0, s.split_accumulators.find? (fun x => x.npub == p.npub) =
        some a0 := by
      rcases List.any_eq_true.mp hacc with ⟨x, hx, hpx⟩
      have : (s.split_accumulators.find? fun x => x.npub == p.npub).isSome :=
        List.find?_isSome.mpr ⟨x, hx, hpx⟩
      exact Option.isSome_iff_exists.mp this
    rcases hex with ⟨a0, ha0⟩
    have ha0beq : (a0.npub == p.npub) = true := by
      have h := List.find?_some ha0
      simpa using h
    unfold getOwed markPayoutSent
    dsimp only
    rw [find?_map_preserve _ _ _ (fun a => by
      by_cases h : (a.npub == p.npub) = true <;> simp [h]), ha0]
    have ha0eq : a0.npub = p.npub := by simpa using ha0beq
    simp [ha0eq]
  · -- sent: the row stores the external reference and the terminal status
    unfold getPayout markPayoutSent
    dsimp only
    rw [find?_map_preserve _ _ _ (fun a => by
      by_cases h : (a.id == pid) = true <;> simp [h]), hfound]
    simp [hid]
  · -- the pending lookup can never return this id again
    intro n a hcontra
    rcases findPendingPayout_is_pending _ n a pid hcontra with
      ⟨q, hqmem, hqid, _, _, hqpend⟩
    have := markPayoutSent_id_sent s pid p.npub amt ref q hqmem hqid
    rw [hqpend] at this
    cases this


/-- Witness for C6 on `sC6`: failing intent 7 keeps the aggregate at 500 and
frees its 300 sats back into the pending sum; sending it decrements the
aggregate to 200, stores the reference, and the lookup cannot return id 7
again. -/
theorem payout_finalization_semantics_witness :
    (markPayoutFailed sC6 7 "boom").split_accumulators = sC6.split_accumulators ∧
    getPendingSum (markPayoutFailed sC6 7 "boom") "n1" =
      getPendingSum sC6 "n1" - 300 ∧
    getOwed (markPayoutSent sC6 7 "n1" 300 (some "zap123")) "n1" =
      getOwed sC6 "n1" - 300 ∧
    (∀ n a, findPendingPayout (markPayoutSent sC6 7 "n1" 300 (some "zap123")) n a ≠
      some 7) := by
  have h := payout_finalization_semantics sC6 7
    { id := 7, npub := "n1", amount_sats := 300, status := PayoutStatus.pending,
      external_ref := none, error := none, finalized := false }
    "boom" 300 (some "zap123")
    (by decide) (by decide) (by decide) (by decide) (by decide)
  exact ⟨h.1, h.2.2.2.1, h.2.2.2.2.2.1, h.2.2.2.2.2.2.2⟩

/-! ## Claim C3: reconciliation -/

/-- Appending one event row changes a subject's event sum by that row's amount
when the subject matches, and not at all otherwise (whatever happens to the
entries table in the same transaction). -/
theorem sumUpdates_state_append (s : DBState) (E : List LBEntry) (u : LBUpdate)
    (q : String) :
    sumUpdates { s with leaderboard_entries := E,
                        leaderboard_updates := s.leaderboard_updates ++ [u] } q
      = sumUpdates s q + (if u.npub = q then u.sats_lost else 0) := by
  unfold sumUpdates
  dsimp only
  rw [List.filter_append]
  by_cases h : u.npub = q
  · simp [h]
  · simp [h]

/-- Every row of the subject after `setEntryTotal` carries the written value. -/
theorem setEntryTotal_mem (s : DBState) (npub : String) (v : Int) :
    ∀ e ∈ (setEntryTotal s npub v).leaderboard_entries, e.npub = npub →
      e.total_sats_lost = v := by
  intro e he hnp
  unfold setEntryTotal at he
  dsimp only at he
  rcases List.mem_map.mp he with ⟨r, _, hre⟩
  by_cases h : (r.npub == npub) = true
  · rw [if_pos h] at hre
    rw [← hre]
  · rw [if_neg h] at hre
    subst hre
    exact absurd hnp (by simpa using h)

/-- A successful `updateLeaderboard` call preserves the leaderboard consistency
invariant (aggregate = event sum for every entry, no orphan event rows). -/
theorem lbConsistent_preserved (n i : String) (a : Int) (r : String)
    (s : DBState) (res : LBUpdateResultCore) (s2 : DBState)
    (hcons : lbConsistent s)
    (hok : updateLeaderboard n i a r s = Except.ok (res, s2)) :
    lbConsistent s2 := by
  obtain ⟨h1, h2⟩ := hcons
  unfold updateLeaderboard at hok
  by_cases hg1 : (n = "" ∨ i = "" ∨ a ≤ 0 ∨ r = "")
  · rw [if_pos hg1] at hok
    cases hok
  · rw [if_neg hg1] at hok
    by_cases hg2 : i.length ≠ 3
    · rw [if_pos hg2] at hok
      cases hok
    · rw [if_neg hg2] at hok
      cases hdup : findUpdateByRef s r with
      | some u =>
          rw [hdup] at hok
          simp only [Except.ok.injEq, Prod.mk.injEq] at hok
          rw [← hok.2]
          exact ⟨h1, h2⟩
      | none =>
          rw [hdup] at hok
          cases hfind : findEntry s n with
          | some e =>
              rw [hfind] at hok
              dsimp only at hok
              simp only [Except.ok.injEq, Prod.mk.injEq] at hok
              obtain ⟨-, hs2⟩ := hok
              have hfind' : s.leaderboard_entries.find? (fun x => x.npub == n)
                  = some e := hfind
              have hemem : e ∈ s.leaderboard_entries :=
                List.mem_of_find?_eq_some hfind'
              have hebeq : e.npub = n := by
                have h := List.find?_some hfind'
                simpa using h
              have hfnpub : ∀ x : LBEntry,
                  ((if x.npub == n then
                      { x with total_sats_lost := e.total_sats_lost + a,
                               initials := toUpperJS i }
                    else x) : LBEntry).npub = x.npub := by
                intro x
                by_cases hx : (x.npub == n) = true <;> simp [hx]
              rw [← hs2]
              constructor
              · intro e' he'
                rcases List.mem_map.mp he' with ⟨r0, hr0, hre⟩
                rw [sumUpdates_state_append]
                by_cases hq : (r0.npub == n) = true
                · have heqq : r0.npub = n := by simpa using hq
                  rw [if_pos hq] at hre
                  rw [← hre]
                  dsimp only
                  rw [heqq, if_pos rfl]
                  have het := h1 e hemem
                  rw [hebeq] at het
                  omega
                · have heqq : r0.npub ≠ n := by simpa using hq
                  rw [if_neg hq] at hre
                  rw [← hre]
                  rw [if_neg (by intro hx; exact heqq hx.symm)]
                  have := h1 r0 hr0
                  omega
              · intro u' hu'
                rcases List.mem_append.mp hu' with h | h
                · rcases h2 u' h with ⟨e0, he0, hnp⟩
                  exact ⟨_, List.mem_map_of_mem _ he0, by rw [hfnpub]; exact hnp⟩
                · have hu : u' = { ref_id := r, npub := n,
                                     initials := toUpperJS i, sats_lost := a } := by
                    simpa using h
                  refine ⟨_, List.mem_map_of_mem _ hemem, ?_⟩
                  rw [hfnpub, hebeq, hu]
          | none =>
              rw [hfind] at hok
              dsimp only at hok
              simp only [Except.ok.injEq, Prod.mk.injEq] at hok
              obtain ⟨-, hs2⟩ := hok
              have hfind' : s.leaderboard_entries.find? (fun x => x.npub == n)
                  = none := hfind
              have hnone : ∀ x ∈ s.leaderboard_entries, x.npub ≠ n := by
                intro x hx
                have h := List.find?_eq_none.mp hfind' x hx
                simpa using h
              have hnoupd : ∀ u0 ∈ s.leaderboard_updates,
                  ((u0.npub == n) : Bool) = false := by
                intro u0 hu0
                rcases h2 u0 hu0 with ⟨e0, he0, hnp⟩
                have := hnone e0 he0
                rw [hnp] at this
                simp [this]
              have hsum0 : sumUpdates s n = 0 :=
                filter_sum_zero _ _ _ hnoupd
              rw [← hs2]
              constructor
              · intro e' he'
                rcases List.mem_append.mp he' with h | h
                · rw [sumUpdates_state_append]
                  rw [if_neg (by intro hx; exact hnone e' h hx.symm)]
                  have := h1 e' h
                  omega
                · have he'w : e' = { npub := n, initials := toUpperJS i,
                                       total_sats_lost := a } := by simpa using h
                  rw [he'w, sumUpdates_state_append]
                  dsimp only
                  rw [if_pos rfl, hsum0]
                  omega
              · intro u' hu'
                rcases List.mem_append.mp hu' with h | h
                · rcases h2 u' h with ⟨e0, he0, hnp⟩
                  exact ⟨e0, List.mem_append_left _ he0, hnp⟩
                · have hu : u' = { ref_id := r, npub := n,
                                     initials := toUpperJS i, sats_lost := a } := by
                    simpa using h
                  refine ⟨{ npub := n, initials := toUpperJS i,
                            total_sats_lost := a },
                    List.mem_append_right _ (by simp), ?_⟩
                  rw [hu]

/-- A whole sequence of append calls preserves the consistency invariant. -/
theorem lbConsistent_applyCalls (calls : List LBCall) :
    ∀ s, lbConsistent s → lbConsistent (applyCalls calls s) := by
  induction calls with
  | nil => intro s h; exact h
  | cons c rest ih =>
      intro s h
      unfold applyCalls
      cases hcall : updateLeaderboard c.npub c.initials c.sats c.refId s with
      | ok r =>
          exact ih r.2 (lbConsistent_preserved c.npub c.initials c.sats c.refId
            s r.1 r.2 h (by rw [hcall]))
      | error e => exact ih s h

/-- On a consistent state, reconciliation reports no drift and writes nothing. -/
theorem reconcile_consistent_no_drift (q : String) (s : DBState)
    (hcons : lbConsistent s) (hq : q ≠ "") :
    ∃ res, validateAndSyncPlayerScore q s = Except.ok (res, s) ∧
      res.wasInconsistent = false := by
  unfold validateAndSyncPlayerScore
  rw [if_neg hq]
  cases hfind : findEntry s q with
  | none => exact ⟨_, rfl, rfl⟩
  | some e =>
      have hfind' : s.leaderboard_entries.find? (fun x => x.npub == q)
          = some e := hfind
      have he : e ∈ s.leaderboard_entries := List.mem_of_find?_eq_some hfind'
      have heq : e.npub = q := by
        have h := List.find?_some hfind'
        simpa using h
      have htot : e.total_sats_lost = sumUpdates s q := by
        have h := hcons.1 e he
        rw [heq] at h
        exact h
      dsimp only
      rw [if_pos (by omega)]
      exact ⟨_, rfl, rfl⟩

/-- After an external perturbation of the stored aggregate, one reconciliation
run rewrites the subject's aggregate back to the event sum. -/
theorem reconcile_restores_after_perturb (npub : String) (v : Int)
    (s : DBState) (e0 : LBEntry)
    (hn : npub ≠ "") (hfind : findEntry s npub = some e0) :
    ∃ res s2, validateAndSyncPlayerScore npub (setEntryTotal s npub v) =
        Except.ok (res, s2) ∧
      ∀ e ∈ s2.leaderboard_entries, e.npub = npub →
        e.total_sats_lost = sumUpdates s npub := by
  have hfind' : s.leaderboard_entries.find? (fun x => x.npub == npub)
      = some e0 := hfind
  have hbeq : (e0.npub == npub) = true := by
    have h := List.find?_some hfind'
    simpa using h
  have hfind1 : findEntry (setEntryTotal s npub v) npub =
      some { e0 with total_sats_lost := v } := by
    unfold findEntry setEntryTotal
    dsimp only
    rw [find?_map_preserve _ _ _ (fun x => by
      by_cases h : (x.npub == npub) = true <;> simp [h]), hfind']
    have heq0 : e0.npub = npub := by simpa using hbeq
    simp [heq0]
  have hsum : sumUpdates (setEntryTotal s npub v) npub = sumUpdates s npub := rfl
  unfold validateAndSyncPlayerScore
  rw [if_neg hn, hfind1]
  dsimp only
  by_cases hd : sumUpdates (setEntryTotal s npub v) npub - v = 0
  · rw [if_pos hd]
    refine ⟨_, _, rfl, ?_⟩
    intro e he hnp
    have hev := setEntryTotal_mem s npub v e he hnp
    rw [hsum] at hd
    omega
  · rw [if_neg hd]
    refine ⟨_, _, rfl, ?_⟩
    intro e he hnp
    have hev := setEntryTotal_mem (setEntryTotal s npub v) npub _ e he hnp
    rw [hev, hsum]

/-- Claim C3: reconciliation computes the subject's event sum and compares it
to the stored aggregate: when they agree it reports `wasInconsistent=false`
and writes nothing; when they differ it overwrites the aggregate with the sum
and reports `oldTotal`, `newTotal` and `difference = newTotal - oldTotal`.
Consequently a reconcile run immediately after any sequence of successful
appends (starting from any consistent state) reports no drift, and a
reconcile run after an external perturbation of the aggregate restores it to
the event sum. -/
theorem validateAndSyncPlayerScore_reconciles :
    (∀ npub s (e : LBEntry), npub ≠ "" → findEntry s npub = some e →
      ((e.total_sats_lost = sumUpdates s npub →
        validateAndSyncPlayerScore npub s =
          Except.ok ({ wasInconsistent := false, oldTotal := e.total_sats_lost,
                       newTotal := sumUpdates s npub, difference := 0 }, s)) ∧
       (e.total_sats_lost ≠ sumUpdates s npub →
        validateAndSyncPlayerScore npub s =
          Except.ok ({ wasInconsistent := true, oldTotal := e.total_sats_lost,
                       newTotal := sumUpdates s npub,
                       difference := sumUpdates s npub - e.total_sats_lost },
                     setEntryTotal s npub (sumUpdates s npub))))) ∧
    (∀ n i a r s res s2, lbConsistent s →
      updateLeaderboard n i a r s = Except.ok (res, s2) → lbConsistent s2) ∧
    (∀ calls s, lbConsistent s → lbConsistent (applyCalls calls s)) ∧
    (∀ q s, lbConsistent s → q ≠ "" →
      ∃ res, validateAndSyncPlayerScore q s = Except.ok (res, s) ∧
        res.wasInconsistent = false) ∧
    (∀ npub v s (e0 : LBEntry), npub ≠ "" → findEntry s npub = some e0 →
      ∃ res s2, validateAndSyncPlayerScore npub (setEntryTotal s npub v) =
          Except.ok (res, s2) ∧
        ∀ e ∈ s2.leaderboard_entries, e.npub = npub →
          e.total_sats_lost = sumUpdates s npub) := by
  refine ⟨?_, ?_, ?_, ?_, ?_⟩
  · intro npub s e hn hfind
    constructor
    · intro heq
      unfold validateAndSyncPlayerScore
      rw [if_neg hn, hfind]
      dsimp only
      rw [if_pos (by omega)]
    · intro hne
      unfold validateAndSyncPlayerScore
      rw [if_neg hn, hfind]
      dsimp only
      rw [if_neg (by omega)]
  · intro n i a r s res s2 hcons hok
    exact lbConsistent_preserved n i a r s res s2 hcons hok
  · intro calls s hcons
    exact lbConsistent_applyCalls calls s hcons
  · intro q s hcons hq
    exact reconcile_consistent_no_drift q s hcons hq
  · intro npub v s e0 hn hfind
    exact reconcile_restores_after_perturb npub v s e0 hn hfind


/-- Witness for C3: reconcile on the consistent `sC3` reports no drift and
writes nothing; after perturbing the aggregate to 99, reconcile restores every
`p` row to the event sum. -/
theorem validateAndSyncPlayerScore_reconciles_witness :
    validateAndSyncPlayerScore "p" sC3 =
      Except.ok ({ wasInconsistent := false, oldTotal := 5, newTotal := 5,
                   difference := 0 }, sC3) ∧
    (∃ res s2, validateAndSyncPlayerScore "p" (setEntryTotal sC3 "p" 99) =
        Except.ok (res, s2) ∧
      ∀ e ∈ s2.leaderboard_entries, e.npub = "p" →
        e.total_sats_lost = sumUpdates sC3 "p") := by
  constructor
  · have h := (validateAndSyncPlayerScore_reconciles.1 "p" sC3
      { npub := "p", initials := "ABC", total_sats_lost := 5 } (by decide)
      (by decide)).1 (by decide)
    exact h
  · exact validateAndSyncPlayerScore_reconciles.2.2.2.2 "p" 99 sC3
      { npub := "p", initials := "ABC", total_sats_lost := 5 } (by decide)
      (by decide)

end RetiredCVM
